import Mathlib

/-!
Verification of `bin/refunds.js` (tbtc.js refund resolution script).

The script is embedded shallowly:

* A pipeline row (a JS object used as a field accumulator) is an association
  list from field name to string value, kept in JS insertion order; the JS
  spread merge is `mergeRow`.
* External collaborators (chain RPC, Bitcoin balance queries, the file system,
  the signature-recovery primitive, the external signer) are a record of pure
  functions `Env`; a rejected promise or thrown exception is `Except.error`
  carrying the description of the thrown value.
* The two destination-extraction regexes of `readBeneficiary` are embedded as
  explicit left-to-right greedy scanners with the exact semantics of
  `String.prototype.matchAll` for those patterns.
* The process-wide delegation cache of `beneficiaryOf` and `deepOwnerOf`
  (which stores the still-pending promise of the underlying query) is modelled
  separately with explicit state passing; the stored promise is represented by
  its settled outcome, and a counter records how many underlying queries were
  issued.
-/

deriving instance DecidableEq for Except

namespace Refunds

/-! Row records (JS objects used as field accumulators) -/

/-- A pipeline row: field name to value, in JS object insertion order. -/
abbrev Row := List (String × String)

/-- Field access, `row[k]`: the value at the first (and only) binding of `k`. -/
def getField (row : Row) (k : String) : Option String :=
  match row with
  | [] => none
  | (k0, v0) :: rest => if k0 = k then some v0 else getField rest k

/-- True when the row has a binding for `k` (`Object.keys` membership). -/
def hasField (row : Row) (k : String) : Bool :=
  (getField row k).isSome

/-- Assign `row[k] = v`: override the binding in place when the key exists
(JS objects keep the original key position), otherwise append it at the end. -/
def setKV (row : Row) (k v : String) : Row :=
  match row with
  | [] => [(k, v)]
  | (k0, v0) :: rest => if k0 = k then (k0, v) :: rest else (k0, v0) :: setKV rest k v

/-- The JS spread merge of two objects, field by field in the order of `frag`. -/
def mergeRow (row frag : Row) : Row :=
  frag.foldl (fun acc p => setKV acc p.1 p.2) row

/-- The key list of a row, `Object.keys(row)`. -/
def keysOf (row : Row) : List String :=
  row.map Prod.fst

/-- JS truthiness of `row.error`: present and not the empty string. -/
def errTruthy (row : Row) : Bool :=
  match getField row "error" with
  | some s => s != ""
  | none => false

/-- JS truthiness of `row.keep`: present and not the empty string. -/
def keepTruthy (row : Row) : Bool :=
  match getField row "keep" with
  | some s => s != ""
  | none => false

/-- Model of `row.keep` where the code reads it as a string (an absent field
is JS `undefined`; the stage functions below only receive rows that carry it). -/
def keepOf (row : Row) : String :=
  (getField row "keep").getD ""

/-! Destination extraction regexes

`readBeneficiary` scans the signed message with two regexes via `matchAll`:
an address pattern and an extended-public-key pattern. Both are embedded as
anchored matchers plus a left-to-right scanner that, exactly like a global JS
regex, emits the leftmost match, resumes right after it, and on failure
advances one character.
-/

/-- The character class of both regexes. -/
def isAlnumAscii (c : Char) : Bool :=
  (decide ('A' ≤ c) && decide (c ≤ 'Z')) || (decide ('a' ≤ c) && decide (c ≤ 'z')) ||
    (decide ('0' ≤ c) && decide (c ≤ '9'))

/-- Anchored match of the address pattern at the head of
the character list; on success returns the match and the remaining input.
The pattern is one of the literal alternatives 1, 3, bc1, then a greedy run of
26 to 33 alphanumeric characters. -/
def matchAddrAt (s : List Char) : Option (List Char × List Char) :=
  let attempt : List Char → List Char → Option (List Char × List Char) :=
    fun pre rest =>
      let run := rest.takeWhile isAlnumAscii
      if run.length ≥ 26 then
        let t := min run.length 33
        some (pre ++ run.take t, rest.drop t)
      else none
  match s with
  | '1' :: rest => attempt ['1'] rest
  | '3' :: rest => attempt ['3'] rest
  | 'b' :: 'c' :: '1' :: rest => attempt ['b', 'c', '1'] rest
  | _ => none

/-- Anchored match of the extended-key pattern at the head of the character
list: one of x, y, z, then the literal pub, then a greedy, possibly empty
alphanumeric run. -/
def matchPubAt (s : List Char) : Option (List Char × List Char) :=
  match s with
  | c :: 'p' :: 'u' :: 'b' :: rest =>
    if c = 'x' || c = 'y' || c = 'z' then
      some (c :: 'p' :: 'u' :: 'b' :: rest.takeWhile isAlnumAscii,
            rest.dropWhile isAlnumAscii)
    else none
  | _ => none

/-- Global-regex scan: repeatedly take the leftmost anchored match, resume
after it, advance one character on failure. Every successful anchored match
consumes at least one character, so fuel equal to the input length suffices. -/
def scanWith (matchAt : List Char → Option (List Char × List Char)) :
    Nat → List Char → List (List Char)
  | 0, _ => []
  | _ + 1, [] => []
  | fuel + 1, c :: cs =>
    match matchAt (c :: cs) with
    | some (m, rest) => m :: scanWith matchAt fuel rest
    | none => scanWith matchAt fuel cs

/-- All matches of the address regex in the message, as `matchAll` yields them. -/
def addrMatches (s : List Char) : List (List Char) :=
  scanWith matchAddrAt s.length s

/-- All matches of the extended-key regex in the message. -/
def pubMatches (s : List Char) : List (List Char) :=
  scanWith matchPubAt s.length s

/-- The destination-extraction tail of `readBeneficiary`: first the address
matches are counted (more than one is an error, exactly one is returned
immediately), and only when there is no address match are the extended-key
matches considered under the same rule; no match of either kind is an error.
The error messages interpolate the address list exactly as the template
literals of the source do. -/
def extractDestination (operatorAddress msg : String) : Except String String :=
  let addresses := (addrMatches msg.data).map (fun l => String.mk l)
  match addresses with
  | [a] => Except.ok a
  | _ :: _ :: _ =>
    Except.error ("Beneficiary message for " ++ operatorAddress ++
      " includes too many addresses: " ++ String.intercalate "," addresses)
  | [] =>
    let pubs := (pubMatches msg.data).map (fun l => String.mk l)
    match pubs with
    | [p] => Except.ok p
    | _ :: _ :: _ =>
      Except.error ("Beneficiary message for " ++ operatorAddress ++
        " includes too many addresses: " ++ String.intercalate "," addresses)
    | [] =>
      Except.error ("Could not find a valid BTC address or *pub in signed message for " ++
        operatorAddress ++ ": " ++ msg)

/-! External collaborators

Every external interaction of the script is a field of `Env`: a promise that
may reject (or a call that may throw) is a function into `Except String`,
carrying the description of the rejection value; `keySharesReady` is total
because the source swallows every failure and returns `false`.
-/

/-- A parsed attestation artifact file: the JSON fields `msg`, `sig`,
`address`. A field missing from the JSON (JS `undefined`, falsy like the
empty string in the truthiness test the source performs) is the empty string. -/
structure Artifact where
  msg : String
  sig : String
  address : String
deriving DecidableEq

/-- The external collaborators of the script, resolved for one run. -/
structure Env where
  /-- The -o option, `beneficiaryDirectory`. -/
  beneficiaryDirectory : Option String
  /-- Availability check `keySharesReady`: directory present, three share files, probe signature. -/
  keySharesReady : String → Bool
  /-- Chain call `keepContract.methods.isClosed().call()` at the reference block. -/
  isClosed : String → Except String Bool
  /-- Chain call `keepContract.methods.isTerminated().call()` at the reference block. -/
  isTerminated : String → Except String Bool
  /-- Chain call `keepContract.methods.getPublicKey().call()`. -/
  getPublicKey : String → Except String String
  /-- Derivation `BitcoinHelpers.Address.publicKeyToP2WPKHAddress` (pure). -/
  pubkeyToAddress : String → String
  /-- Balance query `BitcoinHelpers.Transaction.getBalance` keyed by Bitcoin address. -/
  getBalance : String → Except String Int
  /-- Chain call `keepContract.methods.getMembers().call()`. -/
  getMembers : String → Except String (List String)
  /-- File check `stat(file)`: `none` when stat throws, otherwise `isFile()`. -/
  statFile : String → Option Bool
  /-- Read `readFile` plus `JSON.parse` of an artifact file. -/
  readFileJson : String → Except String Artifact
  /-- Recovery primitive `web3.eth.accounts.recover(msg, sig)`. -/
  recover : String → String → String
  /-- The underlying `tokenStaking().methods.beneficiaryOf(op).call()` outcome. -/
  beneficiaryOfAddr : String → Except String String
  /-- The underlying `lookupOwner(web3, contracts, op)` outcome. -/
  deepOwnerOfAddr : String → Except String String

/-- JS `toLowerCase` on one character: ASCII upper-case letters map to their
lower-case counterpart, everything in a chain address is otherwise fixed. -/
def lowerChar (c : Char) : Char :=
  if c.toNat ≥ 65 ∧ c.toNat ≤ 90 then Char.ofNat (c.toNat + 32) else c

/-- JS `toLowerCase` of a string, character by character. -/
def toLowerStr (s : String) : String :=
  String.mk (s.data.map lowerChar)

/-- The first occurrence of the two-character marker 0x is removed,
as `pubkey.replace` with a non-global regex does. -/
def dropHexMarkerAux : List Char → List Char
  | [] => []
  | '0' :: 'x' :: rest => rest
  | c :: rest => c :: dropHexMarkerAux rest

/-- String version of `dropHexMarkerAux`. -/
def dropHexMarker (s : String) : String :=
  String.mk (dropHexMarkerAux s.data)

/-- The beneficiary artifact path of `readBeneficiary`: the directory (default
beneficiaries), a slash, the lower-cased operator address, and .json. -/
def beneficiaryFilePath (beneficiaryDirectory : Option String) (operatorAddress : String) :
    String :=
  beneficiaryDirectory.getD "beneficiaries" ++ "/" ++ toLowerStr operatorAddress ++ ".json"

/-- Status resolution `keepStatusCompleted`: closed is queried first, then terminated, else no
status; a failing chain call propagates. -/
def keepStatusCompleted (env : Env) (keepAddress : String) : Except String (Option String) :=
  match env.isClosed keepAddress with
  | Except.error e => Except.error e
  | Except.ok true => Except.ok (some "closed")
  | Except.ok false =>
    match env.isTerminated keepAddress with
    | Except.error e => Except.error e
    | Except.ok true => Except.ok (some "terminated")
    | Except.ok false => Except.ok none

/-- The result of `keepHoldsBtc`. -/
structure BalanceData where
  bitcoinAddress : String
  btcBalance : Int
deriving DecidableEq

/-- Balance resolution `keepHoldsBtc`: derive the P2WPKH address from the group public key and
query its balance. -/
def keepHoldsBtc (env : Env) (keepAddress : String) : Except String BalanceData :=
  match env.getPublicKey keepAddress with
  | Except.error e => Except.error e
  | Except.ok pubkey =>
    let bitcoinAddress := env.pubkeyToAddress (dropHexMarker pubkey)
    match env.getBalance bitcoinAddress with
    | Except.error e => Except.error e
    | Except.ok btcBalance => Except.ok ⟨bitcoinAddress, btcBalance⟩

/-! The attestation verifier, `readBeneficiary`

The body below is the uncached path of the source function (the
`operatorBeneficiaries` memo returns a previously extracted destination for
the same operator and is observationally equal for a fixed `Env`; the
delegation cache of `beneficiaryOf` and `deepOwnerOf` is modelled with its
state in the section on claims C5 and C6). A missing or non-regular file
yields `none`; every later defect throws.
-/

/-- Verifier `readBeneficiary` for one operator: stat the artifact file, parse it,
check the three JSON fields for truthiness, recover the signing address and
compare it with the claimed address, run the delegation policy check exactly
as the source condition is written (lower-cased inequality with the
beneficiary AND lower-cased equality with the deep owner throws; the owner is
looked up only when the beneficiary comparison fails, as the short-circuit of
the source does), and finally extract the destination from the message. -/
def readBeneficiary (env : Env) (operatorAddress : String) : Except String (Option String) :=
  let beneficiaryFile := beneficiaryFilePath env.beneficiaryDirectory operatorAddress
  match env.statFile beneficiaryFile with
  | none => Except.ok none
  | some false => Except.ok none
  | some true =>
    match env.readFileJson beneficiaryFile with
    | Except.error e => Except.error e
    | Except.ok jsonContents =>
      if jsonContents.msg = "" ∨ jsonContents.sig = "" ∨ jsonContents.address = "" then
        Except.error ("Invalid format for " ++ operatorAddress ++
          ": message, signature, or signing address missing.")
      else
        let recoveredAddress := env.recover jsonContents.msg jsonContents.sig
        if recoveredAddress ≠ jsonContents.address then
          Except.error ("Recovered address does not match signing address for " ++
            operatorAddress ++ ".")
        else
          match env.beneficiaryOfAddr operatorAddress with
          | Except.error e => Except.error e
          | Except.ok beneficiary =>
            if toLowerStr recoveredAddress ≠ toLowerStr beneficiary then
              match env.deepOwnerOfAddr operatorAddress with
              | Except.error e => Except.error e
              | Except.ok owner =>
                if toLowerStr recoveredAddress = toLowerStr owner then
                  Except.error ("Beneficiary address for " ++ operatorAddress ++
                    " was not signed by operator owner or beneficiary.")
                else
                  Except.map some (extractDestination operatorAddress jsonContents.msg)
            else
              Except.map some (extractDestination operatorAddress jsonContents.msg)

/-- The operators whose lookup returned `null`, in member order (the map,
index and filter combination of the source). -/
def unavailableBeneficiaries (operators : List String)
    (beneficiaries : List (Option String)) : List String :=
  (operators.zip beneficiaries).filterMap
    (fun p => if p.2.isNone then some p.1 else none)

/-- The aggregation tail of `beneficiariesAvailableAndSigned` after the three
lookups resolved. -/
def aggregateBeneficiaries (operators : List String)
    (beneficiaries : List (Option String)) : Row :=
  if (unavailableBeneficiaries operators beneficiaries).length > 0 then
    [("error", "not all beneficiaries are available (missing " ++
      String.intercalate "," (unavailableBeneficiaries operators beneficiaries) ++ ")")]
  else
    [("beneficiary1", (beneficiaries.getD 0 none).getD ""),
     ("beneficiary2", (beneficiaries.getD 1 none).getD ""),
     ("beneficiary3", (beneficiaries.getD 2 none).getD "")]

def beneficiariesAvailableAndSigned (env : Env) (keepAddress : String) : Except String Row :=
  match env.getMembers keepAddress with
  | Except.error e => Except.error e
  | Except.ok operators =>
    match operators.mapM (readBeneficiary env) with
    | Except.error e => Except.ok [("error", "beneficiary lookup failed: " ++ e)]
    | Except.ok beneficiaries => Except.ok (aggregateBeneficiaries operators beneficiaries)

/-- Stub `buildAndBroadcastLiquidationSplit` as the source defines it: a stub that
resolves to the empty object, contributing no fields. -/
def buildAndBroadcastLiquidationSplit (_keepData : Row) : Row :=
  []

/-! The resolution pipeline -/

/-- First generic stage: key shares ready keeps the row, otherwise the
missing-key-shares error is attached. -/
def keySharesStage (env : Env) (row : Row) : Except String Row :=
  Except.ok (if env.keySharesReady (keepOf row) then row
             else mergeRow row [("error", "missing key shares")])

/-- Second generic stage: a resolved status is merged in, no status is the
no-status error, a throwing chain call propagates to the stage boundary. -/
def statusStage (env : Env) (row : Row) : Except String Row :=
  match keepStatusCompleted env (keepOf row) with
  | Except.error e => Except.error e
  | Except.ok (some status) => Except.ok (mergeRow row [("status", status)])
  | Except.ok none => Except.ok (mergeRow row [("error", "no status")])

/-- Third generic stage: a positive balance merges the balance data, a zero or
negative balance is the no-BTC error, a throwing query propagates. -/
def btcStage (env : Env) (row : Row) : Except String Row :=
  match keepHoldsBtc env (keepOf row) with
  | Except.error e => Except.error e
  | Except.ok balanceData =>
    if balanceData.btcBalance > 0 then
      Except.ok (mergeRow row [("bitcoinAddress", balanceData.bitcoinAddress),
                               ("btcBalance", toString balanceData.btcBalance)])
    else
      Except.ok (mergeRow row [("error", "no BTC")])

/-- First liquidation stage: the fragment returned by
`beneficiariesAvailableAndSigned` (always a truthy object in the source, so
the no-beneficiary else branch there is dead) is merged into the row. -/
def beneficiariesStage (env : Env) (row : Row) : Except String Row :=
  match beneficiariesAvailableAndSigned env (keepOf row) with
  | Except.error e => Except.error e
  | Except.ok beneficiaries => Except.ok (mergeRow row beneficiaries)

/-- Second liquidation stage: the stub transaction data (the empty object,
truthy in the source, so the failed-to-build else branch is dead) is merged. -/
def broadcastStage (row : Row) : Except String Row :=
  Except.ok (mergeRow row (buildAndBroadcastLiquidationSplit row))

/-- The `genericStatusProcessors` list. -/
def genericStatusProcessors (env : Env) : List (Row → Except String Row) :=
  [keySharesStage env, statusStage env, btcStage env]

/-- The `liquidationProcessors` list. -/
def liquidationProcessors (env : Env) : List (Row → Except String Row) :=
  [beneficiariesStage env, broadcastStage]

/-- The `misfundProcessors` list: the single identity stage. -/
def misfundProcessors : List (Row → Except String Row) :=
  [fun row => Except.ok row]

/-- One reduce step of `processThrough`: a row whose error field is truthy is
returned unchanged without invoking the stage; otherwise the stage runs and a
thrown error is caught at this boundary and converted into the row-level
error field with the fixed prefix. -/
def runStage (row : Row) (process : Row → Except String Row) : Row :=
  if errTruthy row then row
  else
    match process row with
    | Except.ok r => r
    | Except.error e => mergeRow row [("error", "Error processing transaction: " ++ e)]

/-- Reduce `processThrough`: the sequential fold of the stage list. -/
def processThrough (inputData : Row) (processors : List (Row → Except String Row)) : Row :=
  processors.foldl runStage inputData

/-- The branch dispatch after the generic stages: terminated rows get the
liquidation stages, closed rows the misfund stages, anything else stops. -/
def branchDispatch (env : Env) (basicInfo : Row) : Row :=
  if getField basicInfo "status" = some "terminated" then
    processThrough basicInfo (liquidationProcessors env)
  else if getField basicInfo "status" = some "closed" then
    processThrough basicInfo misfundProcessors
  else
    basicInfo

/-- The whole per-keep task: the seed row carries only the keep identifier. -/
def processKeep (env : Env) (keep : String) : Row :=
  branchDispatch env (processThrough [("keep", keep)] (genericStatusProcessors env))

/-- Insertion-order deduplication, the iteration order of a JS `Set`: the
first occurrence of every element survives, in order. -/
def dedupFirstSeen : List String → List String
  | [] => []
  | x :: xs => x :: (dedupFirstSeen xs).filter (fun y => y ≠ x)

/-- The task list of `processKeeps`: rows with a falsy keep column are
stripped, the keep values are deduplicated in first-seen order. -/
def taskKeeps (keepRows : List Row) : List String :=
  dedupFirstSeen ((keepRows.filter keepTruthy).map (fun r => (getField r "keep").getD ""))

/-- Batch `processKeeps`: one terminal row per distinct keep identifier, in task
order (`Promise.all` preserves the order of the mapped tasks). -/
def processKeeps (env : Env) (keepRows : List Row) : List Row :=
  (taskKeeps keepRows).map (processKeep env)

/-! The report aggregator -/

/-- The header of the output table: the union of all field names across the
terminal rows, in first-seen order. -/
def headerKeys (keepRows : List Row) : List String :=
  dedupFirstSeen ((keepRows.map keysOf).flatten)

/-- One data row of the output table: one cell per header column, the empty
string (how `Array.prototype.join` renders `undefined`) for an absent field. -/
def rowCells (allKeys : List String) (row : Row) : List String :=
  allKeys.map (fun k => (getField row k).getD "")

/-- The rendered report: header line then one comma-joined line per row. -/
def renderTable (keepRows : List Row) : String :=
  let allKeys := headerKeys keepRows
  String.intercalate "\n"
    ((allKeys :: keepRows.map (rowCells allKeys)).map (fun cells => String.intercalate "," cells))

/-! The delegation cache, `beneficiaryOf` and `deepOwnerOf`

The source stores the value of `.call()` or `lookupOwner(...)` in the cache
without awaiting it: the cache holds a promise, and the promise object is
always truthy once stored. The promise is modelled by its settled outcome
(`Except String String`), the cache by an association list of entries, and
the number of underlying queries issued so far by a counter `queryCount`
which the underlying query function receives (so that a model query can
behave differently on a retry).
-/

/-- One `delegationInfoCache` entry: the two optional stored promises. -/
structure DelegationEntry where
  beneficiary : Option (Except String String)
  owner : Option (Except String String)
deriving DecidableEq

/-- The `delegationInfoCache` object. -/
abbrev DelegationCache := List (String × DelegationEntry)

/-- Property access `delegationInfoCache[operatorAddress]`. -/
def lookupEntry (cache : DelegationCache) (op : String) : Option DelegationEntry :=
  match cache with
  | [] => none
  | (k, v) :: rest => if k = op then some v else lookupEntry rest op

/-- The truthiness test `cache[op] && cache[op].beneficiary` of the source:
a stored promise object is always truthy. -/
def cachedBeneficiary (cache : DelegationCache) (op : String) : Option (Except String String) :=
  match lookupEntry cache op with
  | some entry => entry.beneficiary
  | none => none

/-- The truthiness test `cache[op] && cache[op].owner` of the source. -/
def cachedOwner (cache : DelegationCache) (op : String) : Option (Except String String) :=
  match lookupEntry cache op with
  | some entry => entry.owner
  | none => none

/-- Write-through of the beneficiary field, building the entry when absent. -/
def setCachedBeneficiary (cache : DelegationCache) (op : String) (v : Except String String) :
    DelegationCache :=
  match cache with
  | [] => [(op, ⟨some v, none⟩)]
  | (k, entry) :: rest =>
    if k = op then (k, { entry with beneficiary := some v }) :: rest
    else (k, entry) :: setCachedBeneficiary rest op v

/-- Write-through of the owner field, building the entry when absent. -/
def setCachedOwner (cache : DelegationCache) (op : String) (v : Except String String) :
    DelegationCache :=
  match cache with
  | [] => [(op, ⟨none, some v⟩)]
  | (k, entry) :: rest =>
    if k = op then (k, { entry with owner := some v }) :: rest
    else (k, entry) :: setCachedOwner rest op v

/-- Cached lookup `beneficiaryOf`: a cached (possibly rejected) promise is returned as is;
otherwise the underlying query is issued once, stored before anything can
observe its settlement, and returned. -/
def beneficiaryOfC (query : Nat → Except String String) (cache : DelegationCache)
    (queryCount : Nat) (operatorAddress : String) :
    Except String String × DelegationCache × Nat :=
  match cachedBeneficiary cache operatorAddress with
  | some b => (b, cache, queryCount)
  | none =>
    let beneficiary := query queryCount
    (beneficiary, setCachedBeneficiary cache operatorAddress beneficiary, queryCount + 1)

/-- Cached lookup `deepOwnerOf`: a cached promise is returned as is; otherwise
`contractsFromWeb3` is awaited first (its failure rejects the whole call
before anything is cached or queried), then the `lookupOwner` query is issued
once, stored unsettled, and returned. -/
def deepOwnerOfC (contractsFromWeb3 : Except String Unit)
    (lookupOwnerQ : Nat → Except String String) (cache : DelegationCache)
    (queryCount : Nat) (operatorAddress : String) :
    Except String String × DelegationCache × Nat :=
  match cachedOwner cache operatorAddress with
  | some o => (o, cache, queryCount)
  | none =>
    match contractsFromWeb3 with
    | Except.error e => (Except.error e, cache, queryCount)
    | Except.ok _ =>
      let owner := lookupOwnerQ queryCount
      (owner, setCachedOwner cache operatorAddress owner, queryCount + 1)

/-- A stage function preserves the keep column when every row it returns
normally carries the keep value of its input row. -/
def preservesKeep (p : Row → Except String Row) : Prop :=
  ∀ row r, p row = Except.ok r → getField r "keep" = getField row "keep"

/-! Concrete runs used by the counterexamples and witnesses -/

/-- A 27-character single-address destination for the first operator. -/
def destB : String := "1BBBBBBBBBBBBBBBBBBBBBBBBBB"

/-- Destination for the second operator. -/
def destC : String := "1CCCCCCCCCCCCCCCCCCCCCCCCCC"

/-- Destination for the third operator. -/
def destD : String := "1DDDDDDDDDDDDDDDDDDDDDDDDDD"

/-- Attestation message of the first operator: exactly one address match. -/
def msgB : String := "pay " ++ destB ++ " now"

/-- Attestation message of the second operator. -/
def msgC : String := "pay " ++ destC ++ " now"

/-- Attestation message of the third operator. -/
def msgD : String := "pay " ++ destD ++ " now"

/-- A fully healthy run: keep terminated, key shares present, positive
balance, three members, each with a well-formed artifact whose signature
recovers to the delegation beneficiary address of that member, and whose message
holds exactly one Bitcoin address. -/
def envK1 : Env where
  beneficiaryDirectory := none
  keySharesReady := fun _ => true
  isClosed := fun _ => Except.ok false
  isTerminated := fun _ => Except.ok true
  getPublicKey := fun _ => Except.ok "0xdeadbeef"
  pubkeyToAddress := fun _ => "bc1qexample"
  getBalance := fun _ => Except.ok 5000000
  getMembers := fun _ => Except.ok ["0xOp1", "0xOp2", "0xOp3"]
  statFile := fun _ => some true
  readFileJson := fun f =>
    if f = "beneficiaries/0xop1.json" then Except.ok ⟨msgB, "0xsigB", "0xB1"⟩
    else if f = "beneficiaries/0xop2.json" then Except.ok ⟨msgC, "0xsigC", "0xB2"⟩
    else if f = "beneficiaries/0xop3.json" then Except.ok ⟨msgD, "0xsigD", "0xB3"⟩
    else Except.error "ENOENT"
  recover := fun m _ => if m = msgB then "0xB1" else if m = msgC then "0xB2" else "0xB3"
  beneficiaryOfAddr := fun op =>
    if op = "0xOp1" then Except.ok "0xB1"
    else if op = "0xOp2" then Except.ok "0xB2"
    else Except.ok "0xB3"
  deepOwnerOfAddr := fun _ => Except.ok "0xOwner"

/-- The terminal row the pipeline produces for keep 0xK1 under `envK1`. -/
def rowK1 : Row :=
  [("keep", "0xK1"), ("status", "terminated"), ("bitcoinAddress", "bc1qexample"),
   ("btcBalance", "5000000"), ("beneficiary1", destB), ("beneficiary2", destC),
   ("beneficiary3", destD)]

/-- A neutral message with exactly one address destination. -/
def msgNeither : String := "refund to 1AAAAAAAAAAAAAAAAAAAAAAAAAA please"

/-- A run whose single artifact is validly signed by the delegation owner
address 0xOwner, which differs from the beneficiary address 0xBene. -/
def envPolicyOwner : Env where
  beneficiaryDirectory := none
  keySharesReady := fun _ => true
  isClosed := fun _ => Except.ok false
  isTerminated := fun _ => Except.ok true
  getPublicKey := fun _ => Except.ok "0xdeadbeef"
  pubkeyToAddress := fun _ => "bc1qexample"
  getBalance := fun _ => Except.ok 5000000
  getMembers := fun _ => Except.ok ["0xOp"]
  statFile := fun _ => some true
  readFileJson := fun _ => Except.ok ⟨msgNeither, "0xsig", "0xOwner"⟩
  recover := fun _ _ => "0xOwner"
  beneficiaryOfAddr := fun _ => Except.ok "0xBene"
  deepOwnerOfAddr := fun _ => Except.ok "0xOwner"

/-- A run whose single artifact is validly signed by 0xEvil, an address that
is neither the beneficiary 0xBene nor the owner 0xOwner of the delegation. -/
def envPolicyNeither : Env where
  beneficiaryDirectory := none
  keySharesReady := fun _ => true
  isClosed := fun _ => Except.ok false
  isTerminated := fun _ => Except.ok true
  getPublicKey := fun _ => Except.ok "0xdeadbeef"
  pubkeyToAddress := fun _ => "bc1qexample"
  getBalance := fun _ => Except.ok 5000000
  getMembers := fun _ => Except.ok ["0xOp"]
  statFile := fun _ => some true
  readFileJson := fun _ => Except.ok ⟨msgNeither, "0xsig", "0xEvil"⟩
  recover := fun _ _ => "0xEvil"
  beneficiaryOfAddr := fun _ => Except.ok "0xBene"
  deepOwnerOfAddr := fun _ => Except.ok "0xOwner"

/-- A message holding one address-pattern descriptor and one extended-key
descriptor at the same time. -/
def msgTwoDescriptors : String := "1AAAAAAAAAAAAAAAAAAAAAAAAAA xpubB"

/-- An underlying delegation query that fails the first time it is issued and
would succeed on any later fresh attempt. -/
def flakyQuery : Nat → Except String String :=
  fun n => if n = 0 then Except.error "rpc failure" else Except.ok "0xBene"

/-- A well-behaved underlying delegation query. -/
def okQuery : Nat → Except String String :=
  fun _ => Except.ok "0xBene"

/-- A row that has already acquired an error while already carrying a
terminated status, as the third generic stage produces for a BTC-less
terminated keep. -/
def rowErr : Row :=
  [("keep", "0xK2"), ("status", "terminated"), ("error", "no BTC")]

/-- A stage that throws, for exercising the stage-boundary catch. -/
def throwingStage : Row → Except String Row :=
  fun _ => Except.error "boom"

/-- Parsed input rows with a duplicate keep value, a row with an empty keep
cell, and a row without a keep column. -/
def rowsDup : List Row :=
  [[("keep", "0xK1"), ("note", "first")], [("keep", "0xK1"), ("note", "dup")],
   [("keep", "")], [("note", "no keep column")], [("keep", "0xK2")]]

/-! Row lemmas -/

theorem getField_setKV_self (row : Row) (k v : String) :
    getField (setKV row k v) k = some v := by
  induction row with
  | nil => simp [setKV, getField]
  | cons p rest ih =>
    obtain ⟨k0, v0⟩ := p
    by_cases h : k0 = k
    · simp [setKV, getField, h]
    · simp [setKV, getField, h, ih]

theorem getField_setKV_ne (row : Row) (k v k2 : String) (h : k ≠ k2) :
    getField (setKV row k v) k2 = getField row k2 := by
  induction row with
  | nil => simp [setKV, getField, h]
  | cons p rest ih =>
    obtain ⟨k0, v0⟩ := p
    by_cases h0 : k0 = k
    · subst h0
      simp [setKV, getField, h]
    · simp [setKV, getField, h0, ih]

theorem mergeRow_cons (row : Row) (p : String × String) (rest : Row) :
    mergeRow row (p :: rest) = mergeRow (setKV row p.1 p.2) rest := rfl

theorem getField_mergeRow_of_ne (frag : Row) (k : String)
    (h : ∀ p ∈ frag, p.1 ≠ k) (row : Row) :
    getField (mergeRow row frag) k = getField row k := by
  induction frag generalizing row with
  | nil => rfl
  | cons p rest ih =>
    rw [mergeRow_cons,
        ih (fun q hq => h q (List.mem_cons_of_mem _ hq)) (setKV row p.1 p.2),
        getField_setKV_ne _ _ _ _ (h p (List.mem_cons_self _ _))]

/-! Freeze lemmas: the short-circuit of `processThrough` -/

theorem runStage_frozen (row : Row) (p : Row → Except String Row)
    (h : errTruthy row = true) : runStage row p = row := by
  simp [runStage, h]

theorem processThrough_frozen (row : Row) (h : errTruthy row = true)
    (ps : List (Row → Except String Row)) : processThrough row ps = row := by
  induction ps with
  | nil => rfl
  | cons p rest ih =>
    show processThrough (runStage row p) rest = row
    rw [runStage_frozen row p h]
    exact ih

theorem branchDispatch_frozen (env : Env) (row : Row) (h : errTruthy row = true) :
    branchDispatch env row = row := by
  unfold branchDispatch
  by_cases h1 : getField row "status" = some "terminated"
  · simp [h1, processThrough_frozen row h]
  · by_cases h2 : getField row "status" = some "closed" <;>
      simp [h1, h2, processThrough_frozen row h]

theorem err_msg_ne_empty (e : String) :
    ("Error processing transaction: " ++ e) ≠ "" := by
  intro h
  have h2 := congrArg String.length h
  rw [String.length_append] at h2
  have h30 : ("Error processing transaction: " : String).length = 30 := rfl
  have h0 : ("" : String).length = 0 := rfl
  rw [h30, h0] at h2
  omega

theorem errTruthy_after_catch (row : Row) (e : String) :
    errTruthy (mergeRow row [("error", "Error processing transaction: " ++ e)]) = true := by
  have hm : mergeRow row [("error", "Error processing transaction: " ++ e)]
      = setKV row "error" ("Error processing transaction: " ++ e) := rfl
  rw [hm]
  unfold errTruthy
  rw [getField_setKV_self]
  simpa using err_msg_ne_empty e

/-- C3: once any pipeline stage produces a row carrying an error field, no
later stage runs on that row or changes it, and this includes the dispatch of
a branch stage list for a row whose status is already terminated or closed:
the terminal row equals the row as it was when the error was set. The
hypothesis is exactly the truthiness test the source applies to `row.error`;
every error value any stage of this program writes is a non-empty string, so
the hypothesis is equivalent to the row carrying an error field. -/
theorem error_rows_are_frozen (env : Env) (row : Row) (h : errTruthy row = true) :
    (∀ ps, processThrough row ps = row) ∧ branchDispatch env row = row :=
  ⟨processThrough_frozen row h, branchDispatch_frozen env row h⟩

/-- Witness for C3: a concrete terminated row that acquired the no-BTC error
is left untouched by the liquidation stage list and by the branch dispatch. -/
theorem error_rows_are_frozen_witness :
    processThrough rowErr (liquidationProcessors envK1) = rowErr ∧
      branchDispatch envK1 rowErr = rowErr :=
  ⟨(error_rows_are_frozen envK1 rowErr (by decide)).1 (liquidationProcessors envK1),
   (error_rows_are_frozen envK1 rowErr (by decide)).2⟩

/-- C4: an exception thrown by a stage is caught at the stage-invocation
boundary of `processThrough` and converted into the row-level error field
carrying the description of the exception, after which the remaining stages
leave the row unchanged; and for every environment and input, every distinct
keep of the batch still reaches a terminal row (`processKeeps` is total and
returns one row per task). -/
theorem stage_throw_caught_locally (row : Row) (f : Row → Except String Row)
    (e : String) (ps : List (Row → Except String Row))
    (h1 : errTruthy row = false) (h2 : f row = Except.error e) :
    processThrough row (f :: ps)
        = mergeRow row [("error", "Error processing transaction: " ++ e)]
      ∧ ∀ (env : Env) (rows : List Row),
          (processKeeps env rows).length = (taskKeeps rows).length := by
  constructor
  · show processThrough (runStage row f) ps = _
    have hr : runStage row f
        = mergeRow row [("error", "Error processing transaction: " ++ e)] := by
      simp [runStage, h1, h2]
    rw [hr]
    exact processThrough_frozen _ (errTruthy_after_catch row e) ps
  · intro env rows
    simp [processKeeps]

/-- Witness for C4: a throwing stage at the head of the misfund stage list
turns into the row-level error on a concrete seed row. -/
theorem stage_throw_caught_locally_witness :
    processThrough [("keep", "0xK9")] (throwingStage :: misfundProcessors)
      = [("keep", "0xK9"), ("error", "Error processing transaction: boom")] := by
  have h := (stage_throw_caught_locally [("keep", "0xK9")] throwingStage "boom"
    misfundProcessors (by decide) rfl).1
  simpa using h

/-! The attestation policy check (claim C1) -/

/-- C1 (code bug evidence): the source condition throws the policy-mismatch
error precisely when the recovered address equals the deep owner address
while differing from the beneficiary address, and it accepts an artifact
whose recovered address is neither the beneficiary nor the owner. Under
`envPolicyOwner` the artifact is validly signed by the delegation owner
0xOwner (beneficiary 0xBene differs) and verification throws; under
`envPolicyNeither` the artifact is validly signed by 0xEvil, which is
neither authority, and verification succeeds and returns the destination. -/
theorem policy_check_inverted :
    readBeneficiary envPolicyOwner "0xOp"
        = Except.error
            "Beneficiary address for 0xOp was not signed by operator owner or beneficiary."
      ∧ readBeneficiary envPolicyNeither "0xOp"
        = Except.ok (some "1AAAAAAAAAAAAAAAAAAAAAAAAAA") := by
  decide

/-! Destination extraction (claim C2) -/

/-- C2 (counterexample): `msgTwoDescriptors` contains two destination
descriptors, one address-pattern match and one extended-key match, yet
extraction silently returns the address instead of raising a hard error. -/
theorem extraction_picks_address_despite_pub :
    extractDestination "0xOp" msgTwoDescriptors
        = Except.ok "1AAAAAAAAAAAAAAAAAAAAAAAAAA"
      ∧ (addrMatches msgTwoDescriptors.data).length
          + (pubMatches msgTwoDescriptors.data).length = 2 := by
  decide

/-- C2 (amended): extraction considers the two descriptor categories in
priority order, not together. It returns a destination exactly when the
message has exactly one address-pattern match (extended-key matches are then
ignored), or no address-pattern match and exactly one extended-key match;
every other combination raises a hard error. -/
theorem extraction_priority_exactly_one (operatorAddress msg : String) :
    (∃ d, extractDestination operatorAddress msg = Except.ok d) ↔
      ((addrMatches msg.data).length = 1
        ∨ (addrMatches msg.data = [] ∧ (pubMatches msg.data).length = 1)) := by
  unfold extractDestination
  rcases ha : addrMatches msg.data with _ | ⟨a, _ | ⟨a2, arest⟩⟩
  · rcases hp : pubMatches msg.data with _ | ⟨p, _ | ⟨p2, prest⟩⟩ <;>
      simp [ha, hp]
  · simp [ha]
  · simp [ha]

/-! The artifact file naming convention (claim C7) -/

/-- C7 (code bug evidence): the file name the source builds is the bare
lower-cased operator address plus .json directly under the directory; the
documented fixed prefix (the usage header of the script names the files
beneficiary-address.json) is absent. -/
theorem artifact_filename_lacks_documented_marker :
    beneficiaryFilePath none "0xAbC" = "beneficiaries/0xabc.json"
      ∧ beneficiaryFilePath (some "bdir") "0xAbC" = "bdir/0xabc.json"
      ∧ beneficiaryFilePath none "0xAbC" ≠ "beneficiaries/beneficiary-0xabc.json" := by
  decide

/-! The healthy liquidation scenario (claim C8) -/

/-- C8 (code bug evidence): for the healthy terminated keep of `envK1` the
terminal row has no error and carries the three beneficiary fields, but the
transaction-building stage is a stub that resolves to the empty object, so
the merge adds nothing and no transaction-result field exists: the terminal
row consists of exactly the seven fields listed, none of them a transaction
result. -/
theorem healthy_liquidation_has_no_transaction_field :
    processKeep envK1 "0xK1" = rowK1
      ∧ (∀ r : Row, buildAndBroadcastLiquidationSplit r = [])
      ∧ (∀ r : Row, mergeRow r (buildAndBroadcastLiquidationSplit r) = r)
      ∧ keysOf rowK1 = ["keep", "status", "bitcoinAddress", "btcBalance",
          "beneficiary1", "beneficiary2", "beneficiary3"]
      ∧ errTruthy rowK1 = false := by
  refine ⟨by decide, fun r => rfl, fun r => rfl, by decide, by decide⟩

/-! Delegation cache lemmas (claims C5 and C6) -/

theorem cachedBeneficiary_set (cache : DelegationCache) (op : String)
    (v : Except String String) :
    cachedBeneficiary (setCachedBeneficiary cache op v) op = some v := by
  induction cache with
  | nil => simp [setCachedBeneficiary, cachedBeneficiary, lookupEntry]
  | cons p rest ih =>
    obtain ⟨k, entry⟩ := p
    by_cases h : k = op
    · simp [setCachedBeneficiary, cachedBeneficiary, lookupEntry, h]
    · simp [setCachedBeneficiary, cachedBeneficiary, lookupEntry, h] at ih ⊢
      exact ih

theorem cachedOwner_set (cache : DelegationCache) (op : String)
    (v : Except String String) :
    cachedOwner (setCachedOwner cache op v) op = some v := by
  induction cache with
  | nil => simp [setCachedOwner, cachedOwner, lookupEntry]
  | cons p rest ih =>
    obtain ⟨k, entry⟩ := p
    by_cases h : k = op
    · simp [setCachedOwner, cachedOwner, lookupEntry, h]
    · simp [setCachedOwner, cachedOwner, lookupEntry, h] at ih ⊢
      exact ih

/-- C5: for every signer, `beneficiaryOf` and `deepOwnerOf` each issue at
most one underlying query per run: a first call on a cache miss issues
exactly one query and stores its result keyed by the signer, and a repeated
call for the same signer and field returns the stored value and leaves the
cache and the query count untouched. -/
theorem delegation_cache_single_query (query ownerQ : Nat → Except String String)
    (contracts : Except String Unit) (cache : DelegationCache) (n : Nat) (op : String) :
    beneficiaryOfC query (beneficiaryOfC query cache n op).2.1
        (beneficiaryOfC query cache n op).2.2 op = beneficiaryOfC query cache n op
    ∧ (beneficiaryOfC query cache n op).2.2 ≤ n + 1
    ∧ (cachedBeneficiary cache op = none →
        (beneficiaryOfC query cache n op).2.2 = n + 1
        ∧ cachedBeneficiary (beneficiaryOfC query cache n op).2.1 op
            = some (beneficiaryOfC query cache n op).1)
    ∧ deepOwnerOfC contracts ownerQ (deepOwnerOfC contracts ownerQ cache n op).2.1
        (deepOwnerOfC contracts ownerQ cache n op).2.2 op
        = deepOwnerOfC contracts ownerQ cache n op
    ∧ (deepOwnerOfC contracts ownerQ cache n op).2.2 ≤ n + 1
    ∧ (cachedOwner cache op = none → contracts = Except.ok () →
        (deepOwnerOfC contracts ownerQ cache n op).2.2 = n + 1
        ∧ cachedOwner (deepOwnerOfC contracts ownerQ cache n op).2.1 op
            = some (deepOwnerOfC contracts ownerQ cache n op).1) := by
  refine ⟨?_, ?_, ?_, ?_, ?_, ?_⟩
  · cases hc : cachedBeneficiary cache op with
    | some b => simp [beneficiaryOfC, hc]
    | none => simp [beneficiaryOfC, hc, cachedBeneficiary_set]
  · cases hc : cachedBeneficiary cache op with
    | some b => simp [beneficiaryOfC, hc]
    | none => simp [beneficiaryOfC, hc]
  · intro hc
    simp [beneficiaryOfC, hc, cachedBeneficiary_set]
  · cases hc : cachedOwner cache op with
    | some o => simp [deepOwnerOfC, hc]
    | none =>
      cases contracts with
      | error e => simp [deepOwnerOfC, hc]
      | ok u => simp [deepOwnerOfC, hc, cachedOwner_set]
  · cases hc : cachedOwner cache op with
    | some o => simp [deepOwnerOfC, hc]
    | none =>
      cases contracts with
      | error e => simp [deepOwnerOfC, hc]
      | ok u => simp [deepOwnerOfC, hc]
  · intro hc hok
    subst hok
    simp [deepOwnerOfC, hc, cachedOwner_set]

/-- Witness for C5: on an empty cache a first call issues one query and
stores its outcome, and the repeated call returns it with no further query. -/
theorem delegation_cache_single_query_witness :
    ((beneficiaryOfC okQuery [] 0 "0xOp").2.2 = 1
      ∧ cachedBeneficiary (beneficiaryOfC okQuery [] 0 "0xOp").2.1 "0xOp"
          = some (beneficiaryOfC okQuery [] 0 "0xOp").1)
    ∧ beneficiaryOfC okQuery (beneficiaryOfC okQuery [] 0 "0xOp").2.1
        (beneficiaryOfC okQuery [] 0 "0xOp").2.2 "0xOp"
        = beneficiaryOfC okQuery [] 0 "0xOp" :=
  ⟨(delegation_cache_single_query okQuery okQuery (Except.ok ()) [] 0 "0xOp").2.2.1 (by decide),
   (delegation_cache_single_query okQuery okQuery (Except.ok ()) [] 0 "0xOp").1⟩

/-- C6 (counterexample): the underlying query behind `beneficiaryOf` fails on
its first issue; the failure is propagated, but because the unsettled promise
was stored in the cache before settling, the second call for the same signer
replays the same failure and issues no fresh query (the query count stays 1),
even though a fresh query would have succeeded. -/
theorem failed_query_is_cached_and_replayed :
    (beneficiaryOfC flakyQuery [] 0 "0xOp").1 = Except.error "rpc failure"
      ∧ flakyQuery 1 = Except.ok "0xBene"
      ∧ beneficiaryOfC flakyQuery (beneficiaryOfC flakyQuery [] 0 "0xOp").2.1
          (beneficiaryOfC flakyQuery [] 0 "0xOp").2.2 "0xOp"
        = (Except.error "rpc failure", (beneficiaryOfC flakyQuery [] 0 "0xOp").2.1, 1) := by
  decide

/-- C6 (amended): when the underlying chain query behind `beneficiaryOf` or
`deepOwnerOf` fails for a signer, the failure is propagated to the caller
and the rejected promise stays in the delegation cache: a later call for the
same signer returns the same failure without issuing a fresh underlying
query. -/
theorem failed_query_propagated_and_cached (query ownerQ : Nat → Except String String)
    (cache : DelegationCache) (n : Nat) (op : String) (e e2 : String)
    (hmb : cachedBeneficiary cache op = none) (hqb : query n = Except.error e)
    (hmo : cachedOwner cache op = none) (hqo : ownerQ n = Except.error e2) :
    (beneficiaryOfC query cache n op).1 = Except.error e
    ∧ beneficiaryOfC query (beneficiaryOfC query cache n op).2.1
        (beneficiaryOfC query cache n op).2.2 op
      = (Except.error e, (beneficiaryOfC query cache n op).2.1, n + 1)
    ∧ (deepOwnerOfC (Except.ok ()) ownerQ cache n op).1 = Except.error e2
    ∧ deepOwnerOfC (Except.ok ()) ownerQ (deepOwnerOfC (Except.ok ()) ownerQ cache n op).2.1
        (deepOwnerOfC (Except.ok ()) ownerQ cache n op).2.2 op
      = (Except.error e2, (deepOwnerOfC (Except.ok ()) ownerQ cache n op).2.1, n + 1) := by
  refine ⟨?_, ?_, ?_, ?_⟩ <;>
    simp [beneficiaryOfC, deepOwnerOfC, hmb, hqb, hmo, hqo,
          cachedBeneficiary_set, cachedOwner_set]

/-- Witness for C6 (amended) at the flaky query on an empty cache. -/
theorem failed_query_propagated_and_cached_witness :
    (beneficiaryOfC flakyQuery [] 0 "0xOp").1 = Except.error "rpc failure"
    ∧ beneficiaryOfC flakyQuery (beneficiaryOfC flakyQuery [] 0 "0xOp").2.1
        (beneficiaryOfC flakyQuery [] 0 "0xOp").2.2 "0xOp"
      = (Except.error "rpc failure", (beneficiaryOfC flakyQuery [] 0 "0xOp").2.1, 1) :=
  ⟨(failed_query_propagated_and_cached flakyQuery flakyQuery [] 0 "0xOp" "rpc failure"
      "rpc failure" (by decide) (by decide) (by decide) (by decide)).1,
   (failed_query_propagated_and_cached flakyQuery flakyQuery [] 0 "0xOp" "rpc failure"
      "rpc failure" (by decide) (by decide) (by decide) (by decide)).2.1⟩

/-! First-seen deduplication lemmas -/

theorem mem_dedupFirstSeen (l : List String) (a : String) :
    a ∈ dedupFirstSeen l ↔ a ∈ l := by
  induction l with
  | nil => simp [dedupFirstSeen]
  | cons x xs ih =>
    simp only [dedupFirstSeen, List.mem_cons, List.mem_filter]
    constructor
    · rintro (rfl | ⟨h1, _⟩)
      · exact Or.inl rfl
      · exact Or.inr (ih.mp h1)
    · rintro (rfl | h)
      · exact Or.inl rfl
      · by_cases hx : a = x
        · exact Or.inl hx
        · exact Or.inr ⟨ih.mpr h, by simpa using hx⟩

theorem nodup_dedupFirstSeen (l : List String) : (dedupFirstSeen l).Nodup := by
  induction l with
  | nil => simp [dedupFirstSeen]
  | cons x xs ih =>
    rw [dedupFirstSeen, List.nodup_cons]
    refine ⟨?_, ih.filter _⟩
    intro hmem
    rw [List.mem_filter] at hmem
    simpa using hmem.2

/-! The keep column survives every stage -/

theorem preservesKeep_keySharesStage (env : Env) : preservesKeep (keySharesStage env) := by
  intro row r h
  rw [keySharesStage] at h
  split at h
  · cases h
    rfl
  · cases h
    refine getField_mergeRow_of_ne _ _ (fun p hp => ?_) row
    rw [List.mem_singleton] at hp
    subst hp
    decide

theorem preservesKeep_statusStage (env : Env) : preservesKeep (statusStage env) := by
  intro row r h
  rw [statusStage] at h
  split at h
  · cases h
  · cases h
    refine getField_mergeRow_of_ne _ _ (fun p hp => ?_) row
    rw [List.mem_singleton] at hp
    subst hp
    simp
  · cases h
    refine getField_mergeRow_of_ne _ _ (fun p hp => ?_) row
    rw [List.mem_singleton] at hp
    subst hp
    decide

theorem preservesKeep_btcStage (env : Env) : preservesKeep (btcStage env) := by
  intro row r h
  rw [btcStage] at h
  split at h
  · cases h
  · split at h
    · cases h
      refine getField_mergeRow_of_ne _ _ (fun p hp => ?_) row
      simp only [List.mem_cons, List.not_mem_nil, or_false] at hp
      rcases hp with rfl | rfl <;> simp
    · cases h
      refine getField_mergeRow_of_ne _ _ (fun p hp => ?_) row
      rw [List.mem_singleton] at hp
      subst hp
      decide

theorem aggregateBeneficiaries_keys (operators : List String)
    (beneficiaries : List (Option String)) :
    ∀ p ∈ aggregateBeneficiaries operators beneficiaries, p.1 ≠ "keep" := by
  intro p hp
  rw [aggregateBeneficiaries] at hp
  split at hp
  · rw [List.mem_singleton] at hp
    subst hp
    simp
  · simp only [List.mem_cons, List.not_mem_nil, or_false] at hp
    rcases hp with rfl | rfl | rfl <;> simp

theorem beneficiaries_frag_keys (env : Env) (k : String) (frag : Row)
    (h : beneficiariesAvailableAndSigned env k = Except.ok frag) :
    ∀ p ∈ frag, p.1 ≠ "keep" := by
  rw [beneficiariesAvailableAndSigned] at h
  split at h
  · cases h
  · split at h
    · cases h
      intro p hp
      rw [List.mem_singleton] at hp
      subst hp
      simp
    · cases h
      exact aggregateBeneficiaries_keys _ _

theorem preservesKeep_beneficiariesStage (env : Env) :
    preservesKeep (beneficiariesStage env) := by
  intro row r h
  rw [beneficiariesStage] at h
  split at h
  · cases h
  next frag hfrag =>
    cases h
    exact getField_mergeRow_of_ne _ _ (beneficiaries_frag_keys env (keepOf row) frag hfrag) row

theorem preservesKeep_broadcastStage : preservesKeep broadcastStage := by
  intro row r h
  rw [broadcastStage] at h
  cases h
  rfl

theorem runStage_preserves_keep (row : Row) (p : Row → Except String Row)
    (hp : preservesKeep p) : getField (runStage row p) "keep" = getField row "keep" := by
  rw [runStage]
  split
  · rfl
  · split
    next r hr => exact hp row r hr
    next e he =>
      refine getField_mergeRow_of_ne _ _ (fun q hq => ?_) row
      rw [List.mem_singleton] at hq
      subst hq
      simp

theorem processThrough_preserves_keep (ps : List (Row → Except String Row))
    (hps : ∀ p ∈ ps, preservesKeep p) (row : Row) :
    getField (processThrough row ps) "keep" = getField row "keep" := by
  induction ps generalizing row with
  | nil => rfl
  | cons p rest ih =>
    have hstep := runStage_preserves_keep row p (hps p (List.mem_cons_self _ _))
    calc getField (processThrough (runStage row p) rest) "keep"
        = getField (runStage row p) "keep" :=
          ih (fun q hq => hps q (List.mem_cons_of_mem _ hq)) _
      _ = getField row "keep" := hstep

theorem generic_preserve_keep (env : Env) :
    ∀ p ∈ genericStatusProcessors env, preservesKeep p := by
  intro p hp
  rw [genericStatusProcessors] at hp
  simp only [List.mem_cons, List.not_mem_nil, or_false] at hp
  rcases hp with rfl | rfl | rfl
  · exact preservesKeep_keySharesStage env
  · exact preservesKeep_statusStage env
  · exact preservesKeep_btcStage env

theorem liquidation_preserve_keep (env : Env) :
    ∀ p ∈ liquidationProcessors env, preservesKeep p := by
  intro p hp
  rw [liquidationProcessors] at hp
  simp only [List.mem_cons, List.not_mem_nil, or_false] at hp
  rcases hp with rfl | rfl
  · exact preservesKeep_beneficiariesStage env
  · exact preservesKeep_broadcastStage

theorem misfund_preserve_keep : ∀ p ∈ misfundProcessors, preservesKeep p := by
  intro p hp
  rw [misfundProcessors] at hp
  rw [List.mem_singleton] at hp
  subst hp
  intro row r h
  cases h
  rfl

theorem processKeep_keep (env : Env) (k : String) :
    getField (processKeep env k) "keep" = some k := by
  rw [processKeep, branchDispatch]
  have hb : getField (processThrough [("keep", k)] (genericStatusProcessors env)) "keep"
      = some k := by
    rw [processThrough_preserves_keep _ (generic_preserve_keep env)]
    simp [getField]
  split
  · rw [processThrough_preserves_keep _ (liquidation_preserve_keep env)]
    exact hb
  · split
    · rw [processThrough_preserves_keep _ misfund_preserve_keep]
      exact hb
    · exact hb

/-! The report table (claims C9 and C10) -/

theorem mem_headerKeys (rows : List Row) (k : String) :
    k ∈ headerKeys rows ↔ ∃ r ∈ rows, k ∈ keysOf r := by
  rw [headerKeys, mem_dedupFirstSeen, List.mem_flatten]
  constructor
  · rintro ⟨l, hl, hk⟩
    rw [List.mem_map] at hl
    obtain ⟨r, hr, rfl⟩ := hl
    exact ⟨r, hr, hk⟩
  · rintro ⟨r, hr, hk⟩
    exact ⟨keysOf r, List.mem_map_of_mem _ hr, hk⟩

/-- C9: the output table has a header that is the duplicate-free union of the
field names of all terminal rows (a name is a column exactly when some
terminal row produced it), exactly one data row per distinct keep identifier
(the keep column of the terminal rows lists the deduplicated task keeps in
first-seen order, itself duplicate-free, so repeated keep values in the input
collapse to a single row), and every data row has one cell per header column
(an absent field renders as the blank `getD` default). -/
theorem report_table_shape (env : Env) (rows : List Row) :
    (headerKeys (processKeeps env rows)).Nodup
    ∧ (∀ k, k ∈ headerKeys (processKeeps env rows) ↔
        ∃ r ∈ processKeeps env rows, k ∈ keysOf r)
    ∧ (processKeeps env rows).map (fun r => getField r "keep")
        = (taskKeeps rows).map some
    ∧ (taskKeeps rows).Nodup
    ∧ ∀ r ∈ processKeeps env rows,
        (rowCells (headerKeys (processKeeps env rows)) r).length
          = (headerKeys (processKeeps env rows)).length := by
  refine ⟨nodup_dedupFirstSeen _, fun k => mem_headerKeys _ k, ?_, nodup_dedupFirstSeen _, ?_⟩
  · rw [processKeeps, List.map_map]
    exact List.map_congr_left (fun k _ => processKeep_keep env k)
  · intro r _
    exact List.length_map _ _

/-- C10: input rows whose keep column is missing or empty are silently
dropped before deduplication: removing them leaves the output unchanged, no
task carries the empty keep value, and every row with a non-empty keep value
contributes its keep to the task list (and hence to exactly one output row). -/
theorem missing_keep_rows_dropped (env : Env) (rows : List Row) :
    processKeeps env rows = processKeeps env (rows.filter keepTruthy)
    ∧ (∀ k ∈ taskKeeps rows, k ≠ "")
    ∧ ∀ row ∈ rows, keepTruthy row = true →
        (getField row "keep").getD "" ∈ taskKeeps rows := by
  refine ⟨?_, ?_, ?_⟩
  · rw [processKeeps, processKeeps, taskKeeps, taskKeeps, List.filter_filter]
    have hff : (rows.filter fun a => keepTruthy a && keepTruthy a) = rows.filter keepTruthy := by
      apply List.filter_congr
      intro a _
      exact Bool.and_self (keepTruthy a)
    rw [hff]
  · intro k hk
    rw [taskKeeps, mem_dedupFirstSeen, List.mem_map] at hk
    obtain ⟨row, hrow, rfl⟩ := hk
    rw [List.mem_filter] at hrow
    have ht := hrow.2
    rw [keepTruthy] at ht
    cases hg : getField row "keep" with
    | none =>
      rw [hg] at ht
      simp at ht
    | some s =>
      rw [hg] at ht
      simp only [Option.getD_some]
      simpa using ht
  · intro row hrow ht
    rw [taskKeeps, mem_dedupFirstSeen, List.mem_map]
    exact ⟨row, List.mem_filter.mpr ⟨hrow, ht⟩, rfl⟩

/-- Witness for the amended C2 at the two-descriptor message. -/
theorem extraction_priority_exactly_one_witness :
    ∃ d, extractDestination "0xOp" msgTwoDescriptors = Except.ok d :=
  (extraction_priority_exactly_one "0xOp" msgTwoDescriptors).mpr (Or.inl (by decide))

/-- Witness for C9 on a concrete input with duplicate and missing keeps. -/
theorem report_table_shape_witness :
    (processKeeps envK1 rowsDup).map (fun r => getField r "keep")
        = (taskKeeps rowsDup).map some
      ∧ (taskKeeps rowsDup).Nodup :=
  ⟨(report_table_shape envK1 rowsDup).2.2.1, (report_table_shape envK1 rowsDup).2.2.2.1⟩

/-- Witness for C10 on the same concrete input. -/
theorem missing_keep_rows_dropped_witness :
    processKeeps envK1 rowsDup = processKeeps envK1 (rowsDup.filter keepTruthy)
      ∧ "0xK1" ∈ taskKeeps rowsDup :=
  ⟨(missing_keep_rows_dropped envK1 rowsDup).1,
   (missing_keep_rows_dropped envK1 rowsDup).2.2
     [("keep", "0xK1"), ("note", "first")] (by decide) (by decide)⟩

end Refunds
